import Mathlib

/-!
Verification of the sqlite_database C++ wrapper (src/src/sqlite_database.cpp,
src/include/sqlite_database/sqlite_database.h) against its natural-language
specification.

The wrapper is glue code over the external SQLite engine.  We shallowly embed
the wrapper member functions as Lean functions.  The `Query` object state is a
structure; member functions that may throw are modelled as functions returning
`Except String α × QState`: the returned state is the state of the C++ object
after the call, whether or not it threw (C++ member mutations performed before
a `throw` persist on the object).  The accumulated `std::stringstream ss`
buffer is modelled as a `List Char`; the builder member functions
(`operator<<`, `add_array`) touch only this field, so they are embedded as
functions on the buffer component.

Engine-side behaviour (SQLite itself, which is not part of this repository)
is modelled only where the wrapper observes it: column values carry a storage
class (`SqlValue`), and the `sqlite3_column_*` conversions are given
executable models of the documented SQLite coercions.  No claim below depends
on the details of those coercions beyond the integer case.
-/

/-- C `isspace` in the default locale: space, \t, \n, \v, \f, \r. -/
def isCppSpace (c : Char) : Bool :=
  c = ' ' || c = '\t' || c = '\n' || c = '\x0b' || c = '\x0c' || c = '\r'

namespace Query

/-- The separator test of `Query::operator<<` and `Query::add_array`:
`!ss.str().empty() && !isspace(ss.str().back())`. -/
def needSep (buf : List Char) : Bool :=
  match buf.getLast? with
  | none => false
  | some c => !isCppSpace c

/-- `Query &Query::operator<<(const char *value)`: a null pointer returns
immediately; otherwise a space separator is inserted when `needSep`, and the
bytes of `value` (possibly none, for the empty C string) are appended. -/
def appendCStr (buf : List Char) (value : Option (List Char)) : List Char :=
  match value with
  | none => buf
  | some v => (if needSep buf then buf ++ [' '] else buf) ++ v

/-- `Query &Query::operator<<(const std::string &value)`: an empty string
returns immediately; otherwise as `appendCStr`. -/
def appendStdString (buf : List Char) (value : List Char) : List Char :=
  if value = [] then buf
  else (if needSep buf then buf ++ [' '] else buf) ++ value

/-- The loop body of `Query::add_array(size_t columns)`:
`ss << (i ? ",?" : "(?")` for `i` in `[0, columns)`. -/
def arrayBody (columns : Nat) : List Char :=
  (List.range columns).flatMap (fun i => if i = 0 then ['(', '?'] else [',', '?'])

/-- `Query &Query::add_array(size_t columns)`: separator space when `needSep`,
then `columns` placeholder markers (or a bare `(` when `columns = 0`),
then `)`. -/
def add_array1 (buf : List Char) (columns : Nat) : List Char :=
  let b := if needSep buf then buf ++ [' '] else buf
  let b := if columns > 0 then b ++ arrayBody columns else b ++ ['(']
  b ++ [')']

/-- `Query &Query::add_array(size_t columns, size_t rows)`: for `i` in
`[0, rows)`, a raw `,` (direct `ss << ','`, no separator logic) when `i > 0`,
then `add_array(columns)`. -/
def add_array2 (buf : List Char) (columns rows : Nat) : List Char :=
  (List.range rows).foldl
    (fun b i => add_array1 (if i = 0 then b else b ++ [',']) columns) buf

end Query

/-! ## Engine-side value model

SQLite storage classes observed by the wrapper.  The BLOB class is omitted:
the wrapper has no blob API and no claim concerns it.  REAL values are
modelled as rationals; IEEE rounding and float formatting are abstracted
(no claim depends on REAL values). -/

inductive SqlValue where
  | null
  | int (v : Int)
  | real (r : Rat)
  | text (s : List Char)
deriving DecidableEq

/-- Clamp to the signed 64-bit range, as SQLite does when casting wider
values to INTEGER (engine-side, external to this repository). -/
def clampInt64 (v : Int) : Int :=
  if v < -(2 ^ 63) then -(2 ^ 63) else if v > 2 ^ 63 - 1 then 2 ^ 63 - 1 else v

/-- Truncation of a rational toward zero. -/
def ratTrunc (r : Rat) : Int :=
  if r < 0 then -Rat.floor (-r) else Rat.floor r

/-- Numeric value of a run of decimal digits. -/
def digitsVal (ds : List Char) : Nat :=
  ds.foldl (fun n c => n * 10 + (c.toNat - 48)) 0

/-- Sign/digit-prefix parse shared by the engine text-to-integer coercion:
skips leading whitespace, consumes an optional sign and a maximal digit run,
returning the signed value and whether at least one digit was seen. -/
def parseIntPrefix (s : List Char) : Int × Bool :=
  let t := s.dropWhile isCppSpace
  let p : Bool × List Char :=
    match t with
    | '-' :: r => (true, r)
    | '+' :: r => (false, r)
    | _ => (false, t)
  let ds := p.2.takeWhile (fun c => c.isDigit)
  let m : Int := if p.1 then -(digitsVal ds : Int) else (digitsVal ds : Int)
  (m, !ds.isEmpty)

/-- Engine model of `sqlite3_column_int64` applied to a stored value
(documented SQLite coercions; external to this repository): NULL gives 0,
REAL is truncated toward zero and clamped, TEXT is parsed as a signed
decimal prefix (0 when none) and clamped. -/
def columnInt64 : SqlValue → Int
  | .null => 0
  | .int v => v
  | .real r => clampInt64 (ratTrunc r)
  | .text s => clampInt64 (parseIntPrefix s).1

/-- Engine model of `sqlite3_column_text`: NULL gives a null pointer
(`none`); INTEGER is rendered in decimal; REAL rendering is abstracted
(no claim depends on it); TEXT is returned as stored. -/
def columnText : SqlValue → Option (List Char)
  | .null => none
  | .int v => some (toString v).toList
  | .real r => some (toString r).toList
  | .text s => some s

/-- Engine model of `sqlite3_column_double`: NULL gives 0, INTEGER converts
exactly, TEXT is parsed as a decimal integer prefix (the fractional part of
the engine parse is abstracted; no claim depends on it). -/
def columnDouble : SqlValue → Rat
  | .null => 0
  | .int v => (v : Rat)
  | .real r => r
  | .text s => ((parseIntPrefix s).1 : Rat)

/-- Two's-complement truncation of a 64-bit value to 32 bits, the effect of
`sqlite3_column_int` returning `int`. -/
def wrap32 (v : Int) : Int :=
  (v + 2 ^ 31) % 2 ^ 32 - 2 ^ 31

/-! ## Query object state

Fields mirror the private members of `class Query` that the verified member
functions read or write.  `row` gives the storage value the engine reports
for each 0-based column of the current row; `bindings` records the values
the engine has accepted for each 1-based parameter index; `param_count` is
the number of `?` placeholders of the prepared statement, against which
`sqlite3_bind_*` checks its index (SQLITE_RANGE on excess).  The member
functions below model calls on a prepared statement (`stmt != nullptr`);
lazy preparation itself depends only on engine SQL parsing and is not
needed by any claim. -/

structure QState where
  ss : List Char
  bind_idx : Nat
  param_count : Nat
  bindings : Nat → Option SqlValue
  col_idx : Nat
  col_count : Nat
  row : Nat → SqlValue

namespace Query

/-- `int64_t` overload of `Query::bind`: `sqlite3_bind_int64(stmt,
++bind_idx, value)`; the increment of `bind_idx` persists even when the
engine rejects the index. -/
def bind_int64 (q : QState) (value : Int) : Except String Unit × QState :=
  if q.bind_idx + 1 > q.param_count then
    (.error "bind: column index out of range",
     { q with bind_idx := q.bind_idx + 1 })
  else
    (.ok (),
     { q with bind_idx := q.bind_idx + 1,
              bindings := fun i =>
                if i = q.bind_idx + 1 then some (.int value)
                else q.bindings i })

/-- `uint64_t` overload of `Query::bind`: values above the signed 64-bit
maximum are rejected before anything is touched; otherwise the value is
cast to `int64_t` (value-preserving in that range) and bound. -/
def bind_uint64 (q : QState) (value : Nat) : Except String Unit × QState :=
  if value > 2 ^ 63 - 1 then
    (.error "Can\x27t bind value. Sqlite doesn\x27t support uint64 type", q)
  else
    bind_int64 q (Int.ofNat value)

/-- `Query::is_null`: `sqlite3_column_type(stmt, col_idx) == SQLITE_NULL`.
`const noexcept`: no state change, no exception, and no check of `col_idx`
against `col_count`. -/
def is_null (q : QState) : Bool :=
  q.row q.col_idx = SqlValue.null

/-- `Query::skip`: bounds check, then `++col_idx`. -/
def skip (q : QState) : Except String Unit × QState :=
  if q.col_idx ≥ q.col_count then
    (.error "Column is out of range", q)
  else
    (.ok (), { q with col_idx := q.col_idx + 1 })

/-- `Query::get_string`: bounds check, then `sqlite3_column_text(stmt,
col_idx++)`, with a null pointer (NULL storage) mapped to the empty
string. -/
def get_string (q : QState) : Except String (List Char) × QState :=
  if q.col_idx ≥ q.col_count then
    (.error "Column is out of range", q)
  else
    let str := columnText (q.row q.col_idx)
    (.ok (match str with | none => [] | some s => s),
     { q with col_idx := q.col_idx + 1 })

/-- `Query::get_int32`: bounds check, then `sqlite3_column_int(stmt,
col_idx++)` (the engine conversion truncated to 32 bits). -/
def get_int32 (q : QState) : Except String Int × QState :=
  if q.col_idx ≥ q.col_count then
    (.error "Column is out of range", q)
  else
    (.ok (wrap32 (columnInt64 (q.row q.col_idx))),
     { q with col_idx := q.col_idx + 1 })

/-- `Query::get_int64`: bounds check, then `sqlite3_column_int64(stmt,
col_idx++)`. -/
def get_int64 (q : QState) : Except String Int × QState :=
  if q.col_idx ≥ q.col_count then
    (.error "Column is out of range", q)
  else
    (.ok (columnInt64 (q.row q.col_idx)),
     { q with col_idx := q.col_idx + 1 })

/-- `Query::get_uint32`: reads through `get_int64` (which advances the
cursor), then range-checks against `[0, UINT32_MAX]`. -/
def get_uint32 (q : QState) : Except String Nat × QState :=
  match get_int64 q with
  | (.error e, q1) => (.error e, q1)
  | (.ok value, q1) =>
    if value < 0 ∨ value > 4294967295 then
      (.error "uint32 value is out of range", q1)
    else
      (.ok value.toNat, q1)

/-- `Query::get_uint64`: reads through `get_int64` (which advances the
cursor), then rejects negative values. -/
def get_uint64 (q : QState) : Except String Nat × QState :=
  match get_int64 q with
  | (.error e, q1) => (.error e, q1)
  | (.ok value, q1) =>
    if value < 0 then
      (.error "uint64 value is out of range", q1)
    else
      (.ok value.toNat, q1)

/-- The `while (std::getline(ss, tmp, delimiter))` loop of
`Query::get_int64_array` seen as a splitter.  `std::getline` extracts up to
and including the next delimiter (the delimiter is consumed, not appended)
and fails only when it extracts no character at all, i.e. when the stream is
already exhausted.  Hence: empty input yields no segment; a delimiter with
nothing before it yields an empty segment (the extracted delimiter keeps the
read successful); a trailing delimiter yields no trailing empty segment.
The structural recursion below realises exactly that: a leading delimiter
contributes an empty segment, any other leading character is prepended to
the first segment of the rest (creating one when the rest has none). -/
def getlineSplit (d : Char) : List Char → List (List Char)
  | [] => []
  | c :: cs =>
    if c = d then [] :: getlineSplit d cs
    else
      match getlineSplit d cs with
      | [] => [[c]]
      | seg :: rest => (c :: seg) :: rest

/-- `std::stoll(tmp)` (base 10): skip leading whitespace, optional sign,
then a maximal digit run.  No digit at all raises `std::invalid_argument`;
a value outside the signed 64-bit range raises `std::out_of_range` (both
carry the message "stoll"); trailing characters are ignored. -/
def stoll (s : List Char) : Except String Int :=
  let t := s.dropWhile isCppSpace
  let p : Bool × List Char :=
    match t with
    | '-' :: r => (true, r)
    | '+' :: r => (false, r)
    | _ => (false, t)
  let ds := p.2.takeWhile (fun c => c.isDigit)
  if ds.isEmpty then .error "stoll"
  else
    let m : Int := if p.1 then -(digitsVal ds : Int) else (digitsVal ds : Int)
    if m < -(2 ^ 63) ∨ m > 2 ^ 63 - 1 then .error "stoll"
    else .ok m

/-- The body of the `get_int64_array` loop: `result.push_back(std::stoll
(tmp))` for each segment in order; the first `stoll` failure propagates and
the partially built local vector is discarded. -/
def parseSegments : List (List Char) → Except String (List Int)
  | [] => .ok []
  | seg :: rest =>
    match stoll seg with
    | .error e => .error e
    | .ok v =>
      match parseSegments rest with
      | .error e => .error e
      | .ok vs => .ok (v :: vs)

/-- `Query::get_int64_array(char delimiter)`: `get_string()` (bounds check
and cursor advance happen there), then split on the delimiter and parse
every segment with `std::stoll`. -/
def get_int64_array (q : QState) (delimiter : Char) :
    Except String (List Int) × QState :=
  match get_string q with
  | (.error e, q1) => (.error e, q1)
  | (.ok s, q1) => (parseSegments (getlineSplit delimiter s), q1)

/-- `Query::get_double`: bounds check, then `sqlite3_column_double(stmt,
col_idx++)`. -/
def get_double (q : QState) : Except String Rat × QState :=
  if q.col_idx ≥ q.col_count then
    (.error "Column is out of range", q)
  else
    (.ok (columnDouble (q.row q.col_idx)),
     { q with col_idx := q.col_idx + 1 })

end Query

/-! ## Transaction scope

`class Transaction` holds a `std::shared_ptr<SqliteDatabase> database`
(modelled by the flag `active`: the pointer is non-null) and the
`std::uncaught_exceptions()` snapshot taken at construction.  Each verified
member performs at most one `database->exec(...)` call; the engine outcome
of that call is supplied as an oracle argument `execRes : Option String`
(`none` = the statement succeeded, `some msg` = `exec` threw
`DatabaseException(msg)`).  Each member returns the engine statements it
issued, so that "exactly one COMMIT/ROLLBACK" is a statement about the
returned list. -/

inductive EngineStmt where
  | beginStmt
  | commitStmt
  | rollbackStmt
deriving DecidableEq

structure TransState where
  active : Bool
  exception_count : Nat
deriving DecidableEq

namespace Transaction

/-- `Transaction::~Transaction()`: nothing when the database reference is
already cleared; `COMMIT` when `std::uncaught_exceptions()` still equals the
construction snapshot (an `exec` failure propagates out of this
`noexcept(false)` destructor); otherwise `ROLLBACK` inside a `try` block
whose handler only logs, so no error propagates.  Returns the issued
statements and the exception (if any) leaving the destructor. -/
def destruct (t : TransState) (uncaught : Nat) (execRes : Option String) :
    List EngineStmt × Option String :=
  if t.active = false then ([], none)
  else if t.exception_count = uncaught then
    ([.commitStmt], execRes)
  else
    ([.rollbackStmt], none)

/-- `void Transaction::commit()`: on a cleared reference, throw without
touching the engine; otherwise `exec("COMMIT")` and only then
`database.reset()` — so a failing COMMIT leaves the scope active.  Returns
the call result, the new state and the issued statements. -/
def commit (t : TransState) (execRes : Option String) :
    Except String Unit × TransState × List EngineStmt :=
  if t.active = false then
    (.error "Can\x27t commit on inactive transaction", t, [])
  else
    match execRes with
    | some e => (.error e, t, [.commitStmt])
    | none => (.ok (), { t with active := false }, [.commitStmt])

/-- `void Transaction::rollback()`: same shape as `commit` with
`ROLLBACK`. -/
def rollback (t : TransState) (execRes : Option String) :
    Except String Unit × TransState × List EngineStmt :=
  if t.active = false then
    (.error "Can\x27t rollback on inactive transaction", t, [])
  else
    match execRes with
    | some e => (.error e, t, [.rollbackStmt])
    | none => (.ok (), { t with active := false }, [.rollbackStmt])

end Transaction

/-- A user-issued call on a transaction scope. -/
inductive TOp where
  | commitOp
  | rollbackOp
deriving DecidableEq

/-- One user call with a succeeding engine (`execRes = none`). -/
def runOp (t : TransState) (op : TOp) : TransState × List EngineStmt :=
  match op with
  | .commitOp => ((Transaction.commit t none).2.1, (Transaction.commit t none).2.2)
  | .rollbackOp => ((Transaction.rollback t none).2.1, (Transaction.rollback t none).2.2)

/-- A sequence of user calls with a succeeding engine, collecting the
issued statements in order. -/
def runOps (t : TransState) : List TOp → TransState × List EngineStmt
  | [] => (t, [])
  | op :: ops =>
    let r := runOp t op
    let r2 := runOps r.1 ops
    (r2.1, r.2 ++ r2.2)

/-- The engine statements issued over a whole scope lifetime: the user calls
`ops`, then destruction with `uncaught` exceptions in flight, all engine
statements succeeding. -/
def lifecycleStmts (t : TransState) (ops : List TOp) (uncaught : Nat) :
    List EngineStmt :=
  (runOps t ops).2 ++ (Transaction.destruct (runOps t ops).1 uncaught none).1

/-- A fragment with no leading or trailing whitespace (and non-empty), the
shape under which the spec asserts single-space joining of appended
fragments. -/
def cleanFrag (f : List Char) : Bool :=
  !f.isEmpty &&
  (match f.head? with | some c => !isCppSpace c | none => true) &&
  (match f.getLast? with | some c => !isCppSpace c | none => true)

/-! ## Theorems -/

lemma needSep_of_last (buf : List Char) (c : Char)
    (h : buf.getLast? = some c) (hc : isCppSpace c = false) :
    Query.needSep buf = true := by
  unfold Query.needSep
  rw [h]
  simp [hc]

lemma cleanFrag_ne_nil {f : List Char} (h : cleanFrag f = true) : f ≠ [] := by
  intro hf
  subst hf
  simp [cleanFrag] at h

lemma cleanFrag_last {f : List Char} (h : cleanFrag f = true) :
    ∃ c, f.getLast? = some c ∧ isCppSpace c = false := by
  have hne := cleanFrag_ne_nil h
  cases hl : f.getLast? with
  | none => exact absurd (List.getLast?_eq_none_iff.mp hl) hne
  | some c =>
    refine ⟨c, rfl, ?_⟩
    unfold cleanFrag at h
    rw [hl] at h
    simp only [Bool.and_eq_true, Bool.not_eq_true'] at h
    exact h.2

/-- Appending a non-empty fragment to a non-empty buffer whose last
character is not whitespace inserts one space and leaves the fragment's own
last character last. -/
lemma appendStdString_step (buf v : List Char) (c : Char)
    (hv : v ≠ []) (h : buf.getLast? = some c) (hc : isCppSpace c = false) :
    Query.appendStdString buf v = buf ++ ' ' :: v := by
  unfold Query.appendStdString
  rw [if_neg hv, needSep_of_last buf c h hc, if_pos rfl]
  simp

/-- Folding clean fragments over a buffer ending in a non-whitespace
character appends each fragment preceded by exactly one space. -/
lemma foldl_append_clean (frags : List (List Char)) :
    ∀ (buf : List Char) (c : Char), buf.getLast? = some c →
    isCppSpace c = false → (∀ g ∈ frags, cleanFrag g = true) →
    List.foldl Query.appendStdString buf frags
      = buf ++ frags.flatMap (fun g => ' ' :: g) := by
  induction frags with
  | nil =>
    intro buf c _ _ _
    simp
  | cons g gs ih =>
    intro buf c h hc hall
    have hg : cleanFrag g = true := hall g (by simp)
    obtain ⟨c2, hl2, hc2⟩ := cleanFrag_last hg
    have hgne := cleanFrag_ne_nil hg
    have hstep := appendStdString_step buf g c hgne h hc
    have hlast2 : (buf ++ ' ' :: g).getLast? = some c2 := by
      rw [List.getLast?_append]
      have : (' ' :: g).getLast? = g.getLast? := by
        cases g with
        | nil => exact absurd rfl hgne
        | cons a as => simp [List.getLast?]
      rw [this, hl2]
      rfl
    have hrec := ih (buf ++ ' ' :: g) c2 hlast2 hc2
      (fun x hx => hall x (by simp [hx]))
    simp only [List.foldl_cons, hstep, hrec, List.flatMap_cons, List.append_assoc]

lemma runOps_inactive (ops : List TOp) :
    ∀ t : TransState, t.active = false → runOps t ops = (t, []) := by
  induction ops with
  | nil =>
    intro t _
    rfl
  | cons op rest ih =>
    intro t h
    have hop : runOp t op = (t, []) := by
      cases op <;> simp [runOp, Transaction.commit, Transaction.rollback, h]
    simp [runOps, hop, ih t h]

lemma runOp_active (t : TransState) (op : TOp) (h : t.active = true) :
    (runOp t op).1.active = false ∧ (runOp t op).2.length = 1 := by
  cases op <;> simp [runOp, Transaction.commit, Transaction.rollback, h]

lemma destruct_active_length (t : TransState) (u : Nat) (h : t.active = true) :
    (Transaction.destruct t u none).1.length = 1 := by
  unfold Transaction.destruct
  rw [h]
  by_cases he : t.exception_count = u <;> simp [he]

lemma lifecycleStmts_length (ops : List TOp) :
    ∀ (t : TransState) (u : Nat), t.active = true →
    (lifecycleStmts t ops u).length = 1 := by
  induction ops with
  | nil =>
    intro t u h
    unfold lifecycleStmts runOps
    simpa using destruct_active_length t u h
  | cons op rest _
  =>
    intro t u h
    obtain ⟨h1, h2⟩ := runOp_active t op h
    unfold lifecycleStmts
    have hro : runOps t (op :: rest)
        = ((runOp t op).1, (runOp t op).2 ++ []) := by
      have hcons : runOps t (op :: rest)
          = ((runOps (runOp t op).1 rest).1,
             (runOp t op).2 ++ (runOps (runOp t op).1 rest).2) := rfl
      rw [hcons, runOps_inactive rest (runOp t op).1 h1]
    rw [hro]
    simp only [List.append_nil]
    have hd : (Transaction.destruct (runOp t op).1 u none).1 = [] := by
      unfold Transaction.destruct
      rw [h1]
      simp
    rw [hd]
    simpa using h2

lemma parseSegments_error_of_mem (segs : List (List Char)) (seg : List Char)
    (m : String) (hmem : seg ∈ segs) (herr : Query.stoll seg = .error m) :
    ∃ e, Query.parseSegments segs = .error e := by
  induction segs with
  | nil => cases hmem
  | cons a rest ih =>
    rcases List.mem_cons.mp hmem with h | h
    · subst h
      exact ⟨m, by simp [Query.parseSegments, herr]⟩
    · cases ha : Query.stoll a with
      | error e => exact ⟨e, by simp [Query.parseSegments, ha]⟩
      | ok v =>
        obtain ⟨e, he⟩ := ih h
        exact ⟨e, by simp [Query.parseSegments, ha, he]⟩

/-- C1: a Transaction scope still active at destruction issues exactly one
COMMIT when the uncaught-exception count at destruction equals the snapshot
taken at construction; when the count has increased it issues exactly one
ROLLBACK, and any DatabaseError from that ROLLBACK is swallowed (the
propagated-exception component is `none` whatever the engine outcome). -/
theorem transaction_destructor_commit_or_rollback
    (t : TransState) (uncaught : Nat) (execRes : Option String)
    (ha : t.active = true) :
    (t.exception_count = uncaught →
      Transaction.destruct t uncaught execRes
        = ([EngineStmt.commitStmt], execRes)) ∧
    (t.exception_count < uncaught →
      Transaction.destruct t uncaught execRes
        = ([EngineStmt.rollbackStmt], none)) := by
  constructor
  · intro he
    simp [Transaction.destruct, ha, he]
  · intro hl
    have hne : ¬ t.exception_count = uncaught := Nat.ne_of_lt hl
    simp [Transaction.destruct, ha, hne]

theorem transaction_destructor_commit_or_rollback_witness :
    Transaction.destruct ⟨true, 0⟩ 1 (some "disk error")
      = ([EngineStmt.rollbackStmt], none) :=
  (transaction_destructor_commit_or_rollback ⟨true, 0⟩ 1 (some "disk error")
    rfl).2 (by decide)

/-- C3, counterexample: from an empty buffer, `add_array(2, 3)` produces
`(?,?), (?,?), (?,?)` — a space follows each comma between groups (each
`add_array(columns)` call inserts the separator space because the buffer
then ends in the non-whitespace `,`), so the claimed `(?,?),(?,?),(?,?)`
with nothing but commas between groups is not what the code appends. -/
theorem add_array_rows_inserts_spaces :
    Query.add_array2 [] 2 3 = "(?,?), (?,?), (?,?)".toList ∧
    Query.add_array2 [] 2 3 ≠ "(?,?),(?,?),(?,?)".toList := by
  constructor
  · decide
  · decide

/-- C3, amended: from an empty buffer, `add_array(0)` appends exactly `()`,
`add_array(3)` appends exactly `(?,?,?)`, and `add_array(2, 3)` appends
exactly `(?,?), (?,?), (?,?)` — the groups are separated by a comma followed
by one space. -/
theorem add_array_shapes :
    Query.add_array1 [] 0 = "()".toList ∧
    Query.add_array1 [] 3 = "(?,?,?)".toList ∧
    Query.add_array2 [] 2 3 = "(?,?), (?,?), (?,?)".toList := by
  refine ⟨?_, ?_, ?_⟩ <;> decide

/-- C4, counterexample: appending the empty (non-null) C string to the
buffer `"a"` is not a no-op — the `const char *` overload only tests for a
null pointer, so it still inserts the separator space and the buffer
becomes `"a "`. -/
theorem append_empty_cstr_changes_buffer :
    Query.appendCStr ['a'] (some []) = ['a', ' '] ∧
    Query.appendCStr ['a'] (some []) ≠ ['a'] := by
  constructor
  · decide
  · decide

/-- C4, amended: appending a null C string or an empty `std::string` leaves
the buffer exactly unchanged, but appending an empty non-null C string
inserts the separator space whenever the buffer is non-empty with a
non-whitespace last character (and is a no-op otherwise). -/
theorem append_empty_fragment_behavior (buf : List Char) :
    Query.appendCStr buf none = buf ∧
    Query.appendStdString buf [] = buf ∧
    Query.appendCStr buf (some [])
      = (if Query.needSep buf then buf ++ [' '] else buf) := by
  refine ⟨rfl, ?_, ?_⟩
  · simp [Query.appendStdString]
  · simp [Query.appendCStr]

/-- C5, counterexample: the assembled text does not always contain exactly
one separating space between consecutive fragments when fragments carry
their own whitespace: appending `"a"` then `" b"` yields `"a  b"` — the
buffer ends in the non-whitespace `a`, so a separator is inserted in front
of the fragment's own leading space. -/
theorem append_leading_space_double_separator :
    List.foldl Query.appendStdString [] [['a'], [' ', 'b']]
      = ['a', ' ', ' ', 'b'] ∧
    List.foldl Query.appendStdString [] [['a'], [' ', 'b']]
      ≠ ['a', ' ', 'b'] := by
  constructor
  · decide
  · decide

/-- C5, amended: a single space separator is inserted before a non-empty
fragment exactly when the buffer is non-empty and its last character is not
whitespace; consequently fragments that themselves carry no leading or
trailing whitespace are joined with exactly one space between consecutive
fragments — but a fragment's own leading/trailing whitespace adds to the
gap. -/
theorem append_separator_rule (buf v f : List Char) (frags : List (List Char))
    (hv : v ≠ []) (hf : cleanFrag f = true)
    (hfr : ∀ g ∈ frags, cleanFrag g = true) :
    (Query.appendStdString buf v
        = (if Query.needSep buf then buf ++ [' '] else buf) ++ v) ∧
    (Query.needSep buf = true
        ↔ buf ≠ [] ∧ ∀ c, buf.getLast? = some c → isCppSpace c = false) ∧
    List.foldl Query.appendStdString [] (f :: frags)
        = f ++ frags.flatMap (fun g => ' ' :: g) := by
  refine ⟨?_, ?_, ?_⟩
  · simp [Query.appendStdString, hv]
  · unfold Query.needSep
    cases hl : buf.getLast? with
    | none =>
      have : buf = [] := List.getLast?_eq_none_iff.mp hl
      simp [this]
    | some c =>
      have hbne : buf ≠ [] := by
        intro hb
        subst hb
        simp at hl
      constructor
      · intro hns
        refine ⟨hbne, ?_⟩
        intro c2 hc2
        injection hc2 with hcc
        subst hcc
        simpa using hns
      · intro ⟨_, hall⟩
        simpa using hall c rfl
  · obtain ⟨c, hlf, hcf⟩ := cleanFrag_last hf
    have hfne := cleanFrag_ne_nil hf
    have hfirst : Query.appendStdString [] f = f := by
      simp [Query.appendStdString, Query.needSep, hfne]
    calc List.foldl Query.appendStdString [] (f :: frags)
        = List.foldl Query.appendStdString f frags := by
          rw [List.foldl_cons, hfirst]
      _ = f ++ frags.flatMap (fun g => ' ' :: g) :=
          foldl_append_clean frags f c hlf hcf hfr

theorem append_separator_rule_witness :
    List.foldl Query.appendStdString [] [['a'], ['b'], ['c', 'd']]
      = ['a'] ++ [['b'], ['c', 'd']].flatMap (fun g => ' ' :: g) :=
  (append_separator_rule ['x'] ['y'] ['a'] [['b'], ['c', 'd']]
    (by decide) (by decide) (by decide)).2.2

/-- C9: `is_null()` returns true exactly when the storage class the engine
reports for the column at the current cursor is NULL.  In the embedding
`is_null` has type `QState → Bool`: it takes no successor state (the cursor
is not advanced) and returns no `Except` (it cannot raise), and the theorem
holds for every state, including those with `col_idx ≥ col_count` — unlike
the other extraction members it performs no bounds check. -/
theorem is_null_peeks_storage_class (q : QState) :
    Query.is_null q = true ↔ q.row q.col_idx = SqlValue.null := by
  simp [Query.is_null]

/-- C2, counterexample: on a row whose current column holds the text
`1,2,,3`, `get_int64_array(',')` does not skip the empty segment:
`std::getline` yields the segments `1`, `2`, `` (empty), `3`, and
`std::stoll` on the empty segment throws `std::invalid_argument` — the call
raises a parse error instead of returning `[1, 2, 3]`. -/
theorem get_int64_array_empty_segment_errs :
    (Query.get_int64_array
        ⟨[], 0, 0, fun _ => none, 0, 1, fun _ => .text "1,2,,3".toList⟩
        ',').1 = Except.error "stoll" ∧
    (Query.get_int64_array
        ⟨[], 0, 0, fun _ => none, 0, 1, fun _ => .text "1,2,,3".toList⟩
        ',').1 ≠ Except.ok [1, 2, 3] := by
  have h1 : (Query.get_int64_array
      ⟨[], 0, 0, fun _ => none, 0, 1, fun _ => .text "1,2,,3".toList⟩
      ',').1 = Except.error "stoll" := rfl
  refine ⟨h1, ?_⟩
  rw [h1]
  exact fun h => Except.noConfusion h

/-- C2, amended: `get_int64_array` reads the column as text, splits it on
the delimiter with `std::getline` semantics, and parses every resulting
segment — including empty ones — with `std::stoll` in order; any segment on
which `stoll` fails (an empty segment, or one with no leading numeric
prefix) makes the whole call raise a parse error, so `1,2,,3` raises rather
than yielding `[1, 2, 3]`, while `1,2,3` yields `[1, 2, 3]` in order. -/
theorem get_int64_array_parses_all_segments
    (q : QState) (d : Char) (s seg : List Char) (m : String)
    (hcol : q.col_idx < q.col_count)
    (hrow : q.row q.col_idx = .text s)
    (hseg : seg ∈ Query.getlineSplit d s)
    (herr : Query.stoll seg = .error m) :
    Query.get_int64_array q d
        = (Query.parseSegments (Query.getlineSplit d s),
           { q with col_idx := q.col_idx + 1 }) ∧
    (∃ e, Query.parseSegments (Query.getlineSplit d s) = .error e) ∧
    Query.parseSegments (Query.getlineSplit ',' "1,2,3".toList)
        = .ok [1, 2, 3] := by
  have hn : ¬ q.col_idx ≥ q.col_count := not_le.mpr hcol
  refine ⟨?_, parseSegments_error_of_mem _ seg m hseg herr, rfl⟩
  simp [Query.get_int64_array, Query.get_string, hn, hrow, columnText]

theorem get_int64_array_parses_all_segments_witness :
    ∃ e, Query.parseSegments (Query.getlineSplit ',' "1,2,,3".toList)
      = Except.error e :=
  (get_int64_array_parses_all_segments
      ⟨[], 0, 0, fun _ => none, 0, 1, fun _ => .text "1,2,,3".toList⟩
      ',' "1,2,,3".toList [] "stoll"
      (by decide) rfl (by decide) rfl).2.1

/-- C6: whenever the column-read cursor has reached the cached column
count, every advancing extraction member — `skip`, `get_string`,
`get_int32`, `get_uint32`, `get_int64`, `get_uint64`, `get_double`,
`get_int64_array` — raises `DatabaseError("Column is out of range")` and
returns the state unchanged (the cursor does not advance further). -/
theorem extraction_out_of_range (q : QState) (d : Char)
    (h : q.col_count ≤ q.col_idx) :
    Query.skip q = (.error "Column is out of range", q) ∧
    Query.get_string q = (.error "Column is out of range", q) ∧
    Query.get_int32 q = (.error "Column is out of range", q) ∧
    Query.get_uint32 q = (.error "Column is out of range", q) ∧
    Query.get_int64 q = (.error "Column is out of range", q) ∧
    Query.get_uint64 q = (.error "Column is out of range", q) ∧
    Query.get_double q = (.error "Column is out of range", q) ∧
    Query.get_int64_array q d = (.error "Column is out of range", q) := by
  have h2 : q.col_idx ≥ q.col_count := h
  refine ⟨?_, ?_, ?_, ?_, ?_, ?_, ?_, ?_⟩ <;>
    simp [Query.skip, Query.get_string, Query.get_int32, Query.get_uint32,
          Query.get_int64, Query.get_uint64, Query.get_double,
          Query.get_int64_array, h2]

theorem extraction_out_of_range_witness :
    Query.skip ⟨[], 0, 0, fun _ => none, 0, 0, fun _ => .null⟩
      = (.error "Column is out of range",
         ⟨[], 0, 0, fun _ => none, 0, 0, fun _ => .null⟩) :=
  (extraction_out_of_range
      ⟨[], 0, 0, fun _ => none, 0, 0, fun _ => .null⟩ ',' (Nat.le_refl 0)).1

/-- C7: for an unsigned 64-bit value `v` bound into a slot the statement
has, `bind(uint64_t)` raises `DatabaseError` exactly when `v` exceeds the
signed 64-bit maximum `2^63 - 1`; for `v` at or below that maximum the bind
succeeds, the engine stores the (value-preserving) signed cast of `v`, and
a signed 64-bit read of a column holding that stored value returns exactly
`v`. -/
theorem bind_uint64_range_and_roundtrip
    (q r : QState) (v : Nat)
    (_hv : v < 2 ^ 64)
    (hb : q.bind_idx < q.param_count)
    (hr : r.col_idx < r.col_count) :
    ((Query.bind_uint64 q v).1
        = .error "Can\x27t bind value. Sqlite doesn\x27t support uint64 type"
      ↔ 2 ^ 63 - 1 < v) ∧
    (v ≤ 2 ^ 63 - 1 →
      (Query.bind_uint64 q v).1 = .ok () ∧
      (Query.bind_uint64 q v).2.bindings (q.bind_idx + 1)
          = some (.int (Int.ofNat v)) ∧
      (r.row r.col_idx = .int (Int.ofNat v) →
        (Query.get_int64 r).1 = .ok (Int.ofNat v)
          ∧ (Int.ofNat v).toNat = v)) := by
  have hrn : ¬ r.col_idx ≥ r.col_count := not_le.mpr hr
  have hbn : ¬ q.bind_idx + 1 > q.param_count := by omega
  constructor
  · unfold Query.bind_uint64
    by_cases hgt : v > 2 ^ 63 - 1
    · rw [if_pos hgt]
      exact iff_of_true rfl hgt
    · rw [if_neg hgt]
      unfold Query.bind_int64
      rw [if_neg hbn]
      exact iff_of_false (fun h => Except.noConfusion h) hgt
  · intro hle
    have hlt : ¬ v > 2 ^ 63 - 1 := not_lt.mpr hle
    refine ⟨?_, ?_, ?_⟩
    · unfold Query.bind_uint64 Query.bind_int64
      rw [if_neg hlt, if_neg hbn]
    · unfold Query.bind_uint64 Query.bind_int64
      rw [if_neg hlt, if_neg hbn]
      simp
    · intro hrow
      constructor
      · simp [Query.get_int64, hrn, hrow, columnInt64]
      · exact Int.toNat_ofNat v

theorem bind_uint64_range_and_roundtrip_witness :
    (Query.bind_uint64 ⟨[], 0, 1, fun _ => none, 0, 0, fun _ => .null⟩ 5).1
        = .ok () ∧
    (Query.get_int64 ⟨[], 0, 1, fun _ => none, 0, 1, fun _ => .int 5⟩).1
        = .ok (Int.ofNat 5) := by
  have h := (bind_uint64_range_and_roundtrip
      ⟨[], 0, 1, fun _ => none, 0, 0, fun _ => .null⟩
      ⟨[], 0, 1, fun _ => none, 0, 1, fun _ => .int 5⟩
      5 (by decide) (by decide) (by decide)).2 (by decide)
  exact ⟨h.1, (h.2.2 rfl).1⟩

/-- C8, counterexample: a `commit()` whose engine COMMIT statement fails
throws before `database.reset()`, so the scope remains active, and its
later destruction (here during unwinding) issues a further ROLLBACK — the
scope has then issued two engine statements, contradicting "at most one
COMMIT or ROLLBACK is ever issued per scope". -/
theorem transaction_failed_commit_two_stmts :
    (Transaction.commit ⟨true, 0⟩ (some "disk I/O error")).2.1.active
        = true ∧
    (Transaction.commit ⟨true, 0⟩ (some "disk I/O error")).2.2
        ++ (Transaction.destruct
              (Transaction.commit ⟨true, 0⟩ (some "disk I/O error")).2.1
              1 none).1
      = [EngineStmt.commitStmt, EngineStmt.rollbackStmt] := by
  constructor
  · rfl
  · rfl

/-- C8, amended: the active-to-closed transition happens via exactly one of
`commit()`, `rollback()`, or destruction — whichever first succeeds; when
every issued engine statement succeeds, a scope issues exactly one COMMIT
or ROLLBACK over its whole lifetime (any user calls followed by
destruction), and `commit()`/`rollback()` on an already-closed scope raise
`DatabaseError` ("Can't commit/rollback on inactive transaction") without
issuing any engine statement.  A failed engine COMMIT/ROLLBACK, however,
leaves the scope active, so further statements may follow (see the
counterexample). -/
theorem transaction_single_transition (t t2 : TransState) (ops : List TOp)
    (uncaught : Nat) (e : Option String)
    (ha : t.active = true) (hc : t2.active = false) :
    (lifecycleStmts t ops uncaught).length = 1 ∧
    Transaction.commit t2 e
      = (.error "Can\x27t commit on inactive transaction", t2, []) ∧
    Transaction.rollback t2 e
      = (.error "Can\x27t rollback on inactive transaction", t2, []) := by
  refine ⟨lifecycleStmts_length ops t uncaught ha, ?_, ?_⟩
  · simp [Transaction.commit, hc]
  · simp [Transaction.rollback, hc]

theorem transaction_single_transition_witness :
    (lifecycleStmts ⟨true, 0⟩ [TOp.commitOp] 0).length = 1 ∧
    Transaction.commit ⟨false, 0⟩ none
      = (.error "Can\x27t commit on inactive transaction", ⟨false, 0⟩, []) :=
  ⟨(transaction_single_transition ⟨true, 0⟩ ⟨false, 0⟩ [TOp.commitOp] 0 none
      rfl rfl).1,
   (transaction_single_transition ⟨true, 0⟩ ⟨false, 0⟩ [TOp.commitOp] 0 none
      rfl rfl).2.1⟩

/-- C10: `get_uint32` and `get_uint64` read the column through `get_int64`
before range-checking, so when they raise the out-of-range `DatabaseError`
(value negative, or above `UINT32_MAX` for `get_uint32`) the returned state
already has the column cursor advanced past the column — the failed read is
not atomic with respect to the cursor. -/
theorem get_unsigned_error_advances_cursor (q : QState)
    (h : q.col_idx < q.col_count) :
    (columnInt64 (q.row q.col_idx) < 0
        ∨ columnInt64 (q.row q.col_idx) > 4294967295 →
      Query.get_uint32 q
        = (.error "uint32 value is out of range",
           { q with col_idx := q.col_idx + 1 })) ∧
    (columnInt64 (q.row q.col_idx) < 0 →
      Query.get_uint64 q
        = (.error "uint64 value is out of range",
           { q with col_idx := q.col_idx + 1 })) := by
  have hn : ¬ q.col_idx ≥ q.col_count := not_le.mpr h
  constructor
  · intro hv
    simp only [Query.get_uint32, Query.get_int64, if_neg hn]
    rw [if_pos hv]
  · intro hv
    simp only [Query.get_uint64, Query.get_int64, if_neg hn]
    rw [if_pos hv]

theorem get_unsigned_error_advances_cursor_witness :
    Query.get_uint64 ⟨[], 0, 0, fun _ => none, 0, 1, fun _ => .int (-1)⟩
      = (.error "uint64 value is out of range",
         ⟨[], 0, 0, fun _ => none, 1, 1, fun _ => .int (-1)⟩) :=
  (get_unsigned_error_advances_cursor
      ⟨[], 0, 0, fun _ => none, 0, 1, fun _ => .int (-1)⟩
      (by decide)).2 (by decide)
